import Mathlib

/-!
Shallow embedding of `openbb_core/app/logs/handlers/posthog_handler.py`:
the `PosthogHandler` logging sink that classifies log records, enriches
them with session and user context, and forwards them to the Posthog
telemetry client.  Python dicts are modelled as insertion-ordered
association lists, Python exceptions as an explicit error type, and the
external Posthog client as an environment describing whether each remote
call raises.
-/

/-- JSON values as produced by the Python `json.loads` call in
`PosthogHandler.log_to_dict`.  Object fields keep insertion order, like
Python dicts.  Numbers are modelled as integers only: the structured log
payloads this handler classifies carry integer and string fields, and the
model rejects fractional literals instead of parsing floats. -/
inductive Json where
  | null : Json
  | bool (b : Bool) : Json
  | num (n : Int) : Json
  | str (s : String) : Json
  | arr (xs : List Json) : Json
  | obj (fields : List (String × Json)) : Json

/-- Python exceptions that can be raised while `PosthogHandler.send` runs.
Every one of them derives from `Exception`, so the bare `except Exception`
in `PosthogHandler.emit` catches each of them. -/
inductive PyError where
  | jsonDecodeError (msg : String) : PyError
  | typeError (msg : String) : PyError
  | externalError (msg : String) : PyError

/-- Lookup in a Python dict modelled as an association list: value of the
first entry whose key matches. -/
def lookupAssoc (k : String) : List (String × Json) → Option Json
  | [] => none
  | (k', v) :: rest => if k' = k then some v else lookupAssoc k rest

/-- Python dict assignment `d[k] = v`: overwrite the value in place when the
key is present (keeping its position), append the pair otherwise. -/
def insertAssoc (k : String) (v : Json) : List (String × Json) → List (String × Json)
  | [] => [(k, v)]
  | (k', v') :: rest => if k' = k then (k', v) :: rest else (k', v') :: insertAssoc k v rest

/-- Python `d.pop(k, None)`: drop the entry with the given key, if any. -/
def removeKey (k : String) : List (String × Json) → List (String × Json)
  | [] => []
  | (k', v') :: rest => if k' = k then rest else (k', v') :: removeKey k rest

/-- Python dict merge `\x7b**a, **b\x7d` (also `a.update(b)`): insert the
entries of `b` into `a` one by one, later keys overwriting earlier values
in place. -/
def mergeDict (a b : List (String × Json)) : List (String × Json) :=
  b.foldl (fun acc kv => insertAssoc kv.1 kv.2 acc) a

/-- Keys of a modelled dict are pairwise distinct, as they are for every
real Python dict. -/
def NodupKeys (l : List (String × Json)) : Prop :=
  (l.map Prod.fst).Nodup

/-- Whitespace accepted between JSON tokens: space, tab, line feed and
carriage return. -/
def jsonWs : Char → Bool
  | ' ' => true
  | '\t' => true
  | '\n' => true
  | '\r' => true
  | _ => false

/-- Skip JSON whitespace. -/
def skipWs (cs : List Char) : List Char :=
  cs.dropWhile jsonWs

/-- Backslash escapes accepted inside JSON string literals.  The model
covers the single-character escapes; `\uXXXX` escapes are rejected, which
no payload handled by this sink uses. -/
def escChar : Char → Option Char
  | '\\' => some '\\'
  | '"' => some '"'
  | 'n' => some '\n'
  | 't' => some '\t'
  | 'r' => some '\r'
  | '/' => some '/'
  | 'b' => some (Char.ofNat 8)
  | 'f' => some (Char.ofNat 12)
  | _ => none

/-- Parse the body of a JSON string literal, after the opening quote,
returning the decoded characters and the input after the closing quote. -/
def parseStrChars : List Char → Except PyError (List Char × List Char)
  | [] => .error (PyError.jsonDecodeError ("Unterminated string"))
  | '"' :: rest => .ok ([], rest)
  | '\\' :: rest =>
    match rest with
    | [] => .error (PyError.jsonDecodeError ("Unterminated string escape"))
    | e :: rest' =>
      match escChar e with
      | none => .error (PyError.jsonDecodeError ("Invalid string escape"))
      | some c =>
        match parseStrChars rest' with
        | .error err => .error err
        | .ok (cs, rem) => .ok (c :: cs, rem)
  | c :: rest =>
    match parseStrChars rest with
    | .error err => .error err
    | .ok (cs, rem) => .ok (c :: cs, rem)

/-- Numeric value of a list of decimal digits. -/
def digitsToNat (ds : List Char) : Nat :=
  ds.foldl (fun a c => a * 10 + (c.toNat - 48)) 0

/-- Parse a JSON integer literal.  Fractional and exponent forms are
rejected by the model (see `Json`). -/
def parseIntChars (cs : List Char) : Except PyError (Int × List Char) :=
  let p := match cs with
    | '-' :: rest => (true, rest)
    | _ => (false, cs)
  let ds := p.2.takeWhile Char.isDigit
  let rest := p.2.dropWhile Char.isDigit
  if ds.isEmpty then .error (PyError.jsonDecodeError ("Expecting value"))
  else
    match rest with
    | '.' :: _ => .error (PyError.jsonDecodeError ("fractional number unsupported in model"))
    | 'e' :: _ => .error (PyError.jsonDecodeError ("exponent unsupported in model"))
    | 'E' :: _ => .error (PyError.jsonDecodeError ("exponent unsupported in model"))
    | _ =>
      let n : Int := Int.ofNat (digitsToNat ds)
      .ok (if p.1 then -n else n, rest)

mutual

/-- Parse one JSON value.  Fuel bounds the recursion depth; `jsonLoads`
supplies enough fuel that it never runs out. -/
def parseJson : Nat → List Char → Except PyError (Json × List Char)
  | 0, _ => .error (PyError.jsonDecodeError ("model fuel exhausted"))
  | fuel + 1, cs =>
    match skipWs cs with
    | [] => .error (PyError.jsonDecodeError ("Expecting value"))
    | c :: rest =>
      if c == 'n' then
        match rest with
        | 'u' :: 'l' :: 'l' :: rem => .ok (Json.null, rem)
        | _ => .error (PyError.jsonDecodeError ("Expecting value"))
      else if c == 't' then
        match rest with
        | 'r' :: 'u' :: 'e' :: rem => .ok (Json.bool true, rem)
        | _ => .error (PyError.jsonDecodeError ("Expecting value"))
      else if c == 'f' then
        match rest with
        | 'a' :: 'l' :: 's' :: 'e' :: rem => .ok (Json.bool false, rem)
        | _ => .error (PyError.jsonDecodeError ("Expecting value"))
      else if c == '"' then
        match parseStrChars rest with
        | .error e => .error e
        | .ok (body, rem) => .ok (Json.str (String.mk body), rem)
      else if c == '[' then
        match skipWs rest with
        | ']' :: rem => .ok (Json.arr [], rem)
        | cs' => parseArrayItems fuel cs' []
      else if c == '\x7b' then
        match skipWs rest with
        | '\x7d' :: rem => .ok (Json.obj [], rem)
        | cs' => parseObjItems fuel cs' []
      else if c == '-' || c.isDigit then
        match parseIntChars (c :: rest) with
        | .error e => .error e
        | .ok (n, rem) => .ok (Json.num n, rem)
      else
        .error (PyError.jsonDecodeError ("Expecting value"))

/-- Parse the comma-separated elements of a JSON array, after the opening
bracket (and any leading whitespace), up to the closing bracket. -/
def parseArrayItems : Nat → List Char → List Json → Except PyError (Json × List Char)
  | 0, _, _ => .error (PyError.jsonDecodeError ("model fuel exhausted"))
  | fuel + 1, cs, acc =>
    match parseJson fuel cs with
    | .error e => .error e
    | .ok (j, rem) =>
      match skipWs rem with
      | ',' :: rem' => parseArrayItems fuel rem' (acc ++ [j])
      | ']' :: rem' => .ok (Json.arr (acc ++ [j]), rem')
      | _ => .error (PyError.jsonDecodeError ("Expecting delimiter"))

/-- Parse the comma-separated members of a JSON object, after the opening
brace (and any leading whitespace), up to the closing brace.  Duplicate
keys overwrite earlier values, as in Python. -/
def parseObjItems : Nat → List Char → List (String × Json) → Except PyError (Json × List Char)
  | 0, _, _ => .error (PyError.jsonDecodeError ("model fuel exhausted"))
  | fuel + 1, cs, acc =>
    match skipWs cs with
    | '"' :: rest =>
      match parseStrChars rest with
      | .error e => .error e
      | .ok (kcs, rem) =>
        match skipWs rem with
        | ':' :: rem' =>
          match parseJson fuel rem' with
          | .error e => .error e
          | .ok (v, rem2) =>
            match skipWs rem2 with
            | ',' :: rem3 => parseObjItems fuel rem3 (insertAssoc (String.mk kcs) v acc)
            | '\x7d' :: rem3 => .ok (Json.obj (insertAssoc (String.mk kcs) v acc), rem3)
            | _ => .error (PyError.jsonDecodeError ("Expecting delimiter"))
        | _ => .error (PyError.jsonDecodeError ("Expecting colon delimiter"))
    | _ => .error (PyError.jsonDecodeError ("Expecting property name"))

end

/-- Model of Python `json.loads`: parse one JSON document and reject
trailing non-whitespace, raising `json.JSONDecodeError` (a `ValueError`,
hence an `Exception`) on malformed input. -/
def jsonLoads (s : String) : Except PyError Json :=
  match parseJson (s.length + 1) s.toList with
  | .error e => .error e
  | .ok (j, rem) =>
    if (skipWs rem).isEmpty then .ok j
    else .error (PyError.jsonDecodeError ("Extra data"))

/-- Check that the first list is an initial segment of the second. -/
def startsWithList : List Char → List Char → Bool
  | [], _ => true
  | _ :: _, [] => false
  | p :: ps, c :: cs => p == c && startsWithList ps cs

/-- Match attempt of the regex `(STARTUP|CMD|ERROR): (.*)` at the head of
the input: on success, return the tag and the input after the literal
`": "` separator.  The three alternatives begin with distinct characters,
so the alternation order of the regex cannot matter here. -/
def matchTag (cs : List Char) : Option (String × List Char) :=
  if startsWithList ("STARTUP: ".toList) cs then some ("STARTUP", cs.drop 9)
  else if startsWithList ("CMD: ".toList) cs then some ("CMD", cs.drop 5)
  else if startsWithList ("ERROR: ".toList) cs then some ("ERROR", cs.drop 7)
  else none

/-- Scanning loop of `re.findall(r"(STARTUP|CMD|ERROR): (.*)", log_info)`:
try a match at every position, left to right; on a match the greedy `(.*)`
group takes the rest of the line (`.` does not cross a newline) and the
scan resumes at the match end.  Fuel bounds the recursion; `findall`
supplies the input length, which always suffices because every step
consumes at least one character. -/
def findallAux : Nat → List Char → List (String × String)
  | 0, _ => []
  | _ + 1, [] => []
  | fuel + 1, c :: rest =>
    match matchTag (c :: rest) with
    | some (tag, after) =>
      (tag, String.mk (after.takeWhile (fun ch => ch != '\n'))) ::
        findallAux fuel (after.dropWhile (fun ch => ch != '\n'))
    | none => findallAux fuel rest

/-- Model of `re.findall(r"(STARTUP|CMD|ERROR): (.*)", log_info)` as the
ordered list of `(tag, payload)` group pairs. -/
def findall (cs : List Char) : List (String × String) :=
  findallAux cs.length cs

/-- Loop body of `PosthogHandler.log_to_dict`: parse each payload with
`json.loads` and assign it into the dict under its tag, stopping with the
raised exception on the first malformed payload. -/
def logToDictAux : List (String × String) → List (String × Json) → Except PyError (List (String × Json))
  | [], acc => .ok acc
  | (tag, payload) :: rest, acc =>
    match jsonLoads payload with
    | .error e => .error e
    | .ok j => logToDictAux rest (insertAssoc tag j acc)

/-- Model of `PosthogHandler.log_to_dict`: collect every regex match of
`(STARTUP|CMD|ERROR): (.*)` over the log line into a dict mapping the tag
to its JSON-parsed payload. -/
def log_to_dict (log_info : String) : Except PyError (List (String × Json)) :=
  logToDictAux (findall log_info.toList) []

/-- Settings snapshot consumed by the handler.  The class itself lives in
`openbb_core/app/logs/models/logging_settings.py`; the handler only reads
these string fields.  An unset user id is the empty string, matching the
Python truthiness test `if self._settings.user_id`. -/
structure LoggingSettings where
  app_name : String
  sub_app_name : String
  app_id : String
  session_id : String
  platform : String
  python_version : String
  platform_version : String
  user_id : String
  user_email : String
  user_primary_usage : String

/-- Python object reference: a heap address paired with the value stored
there.  Used to model `deepcopy` in the `settings` property, which returns
an equal value at a fresh address. -/
structure PyObj (α : Type) where
  addr : Nat
  val : α

/-- Mutable state of a `PosthogHandler` instance: the stored settings
reference and the `logged_in` flag set in `__init__`. -/
structure PosthogHandlerState where
  _settings : PyObj LoggingSettings
  logged_in : Bool

/-- Model of `PosthogHandler.__init__`: store the settings reference and
clear the `logged_in` flag. -/
def initHandler (settings : PyObj LoggingSettings) : PosthogHandlerState :=
  { _settings := settings, logged_in := false }

/-- Getter of the `settings` property: `return deepcopy(self._settings)`.
The deep copy of a plain settings object is an equal value stored at a
fresh address, supplied here as `freshAddr`. -/
def settings_get (st : PosthogHandlerState) (freshAddr : Nat) : PyObj LoggingSettings :=
  { addr := freshAddr, val := st._settings.val }

/-- Setter of the `settings` property: `self._settings = settings` stores
the given reference as-is. -/
def settings_set (st : PosthogHandlerState) (s : PyObj LoggingSettings) : PosthogHandlerState :=
  { st with _settings := s }

/-- Log record snapshot as the handler reads it: numeric severity,
rendered message (the result of `record.getMessage()`), the optional
`extra` dict, and the optional exception pair `(str(exc_info[0]),
str(exc_info[1]))`. -/
structure LogRecord where
  levelno : Int
  message : String
  extra : Option (List (String × Json))
  exc_info : Option (String × String)

/-- Remote calls issued to the Posthog client. -/
inductive PosthogCall where
  | identify (user_id : String) (props : List (String × Json)) : PosthogCall
  | aliasCall (user_id : String) (app_id : String) : PosthogCall
  | capture (distinct_id : String) (event : String) (properties : List (String × Json)) : PosthogCall

/-- Behaviour of the external collaborators of one `send` call: whether
each Posthog client call raises (network failures are `Exception`s), the
`Env().DEBUG_MODE` flag, and the sensitive-text filter
`FormatterWithExceptions.filter_log_line` applied to the message. -/
structure PosthogEnv where
  identifyErr : Option PyError
  aliasErr : Option PyError
  captureErr : Option PyError
  debugMode : Bool
  filterLogLine : String → String

/-- Model of `logging.getLevelName` on the standard levels; an unknown
level renders as `Level <n>`. -/
def getLevelName (n : Int) : String :=
  if n = 50 then ("CRITICAL")
  else if n = 40 then ("ERROR")
  else if n = 30 then ("WARNING")
  else if n = 20 then ("INFO")
  else if n = 10 then ("DEBUG")
  else if n = 0 then ("NOTSET")
  else s!"Level {n}"

/-- ASCII lowercasing, modelling Python `str.lower` on the ASCII-only
event tags and level names this handler builds. -/
def strLower (s : String) : String :=
  String.mk (s.toList.map Char.toLower)

/-- Model of `PosthogHandler.extract_log_extra`: seed the property bag
with the session context, add `userId` when the settings expose one, merge
the record's `extra` dict, and describe any attached exception. -/
def extract_log_extra (st : PosthogHandlerState) (r : LogRecord) : List (String × Json) :=
  let s := st._settings.val
  let base : List (String × Json) :=
    [("appName", Json.str s.app_name),
     ("subAppName", Json.str s.sub_app_name),
     ("appId", Json.str s.app_id),
     ("sessionId", Json.str s.session_id),
     ("platform", Json.str s.platform),
     ("pythonVersion", Json.str s.python_version),
     ("obbPlatformVersion", Json.str s.platform_version)]
  let base := if s.user_id.isEmpty then base else insertAssoc ("userId") (Json.str s.user_id) base
  let base := match r.extra with
    | some ex => mergeDict base ex
    | none => base
  match r.exc_info with
  | some ti =>
    insertAssoc ("exception") (Json.obj [("type", Json.str ti.1), ("value", Json.str ti.2)]) base
  | none => base

/-- Values of the `AllowedEvents` enum inside `PosthogHandler`, in
declaration order, as `[e.value for e in self.AllowedEvents]` lists them. -/
def allowedEventValues : List String :=
  ["log_startup", "log_cmd", "log_error", "log_warning"]

/-- Model of `re.match(r"^(QUEUE|START|END|INPUT:)", log_line)`: does the
line begin with one of the noise markers? -/
def noiseStart (s : String) : Bool :=
  startsWithList ("QUEUE".toList) s.toList || startsWithList ("START".toList) s.toList ||
    startsWithList ("END".toList) s.toList || startsWithList ("INPUT:".toList) s.toList

/-- Python truthiness of the values the `log_dict` variable can hold after
the structured branch of `send`: empty containers, empty strings, zero,
`False` and `None` are falsy. -/
def jsonTruthy : Json → Bool
  | Json.null => false
  | Json.bool b => b
  | Json.num n => n != 0
  | Json.str s => !s.isEmpty
  | Json.arr xs => !xs.isEmpty
  | Json.obj fields => !fields.isEmpty

/-- Property bag of `send` before the structured branch: the extracted
context updated with the `level` and `message` keys. -/
def baseLogExtra (env : PosthogEnv) (st : PosthogHandlerState) (r : LogRecord) : List (String × Json) :=
  mergeDict (extract_log_extra st r)
    [("level", Json.str (getLevelName r.levelno)),
     ("message", Json.str (env.filterLogLine r.message))]

/-- Classification phase of `send`, up to the structured branch: yields
the event name, the final value of the `log_dict` variable, and the
property bag, or the exception the corresponding Python code raises.  In
the structured branch `\x7b**log_extra, **log_dict\x7d` raises `TypeError`
when `log_dict` ended up holding a non-mapping (a `STARTUP` payload that
is not a JSON object). -/
def sendPrep (env : PosthogEnv) (st : PosthogHandlerState) (r : LogRecord) :
    Except PyError (String × Json × List (String × Json)) :=
  let log_line := env.filterLogLine r.message
  let log_extra := baseLogExtra env st r
  let event_name := "log_" ++ strLower (getLevelName r.levelno)
  match log_to_dict log_line with
  | .error e => .error e
  | .ok [] => .ok (event_name, Json.obj [], log_extra)
  | .ok ((k0, v0) :: tl) =>
    let ld := (k0, v0) :: tl
    let event_name := "log_" ++ strLower k0
    let log_dict : Json :=
      match lookupAssoc ("STARTUP") ld with
      | some v => v
      | none => Json.obj ld
    match log_dict with
    | Json.obj fields =>
      .ok (event_name, Json.obj fields, removeKey ("message") (mergeDict log_extra fields))
    | _ => .error (PyError.typeError ("argument after ** must be a mapping"))

/-- Outcome of the classification and filtering phase of `send`. -/
inductive SendDecision where
  | raise (e : PyError) : SendDecision
  | drop : SendDecision
  | accept (event_name : String) (properties : List (String × Json)) : SendDecision

/-- Classification and filtering phase of `send`: build the event, then
apply the two early returns (noise markers with no structured data, and
the allowed-events check). -/
def classify (env : PosthogEnv) (st : PosthogHandlerState) (r : LogRecord) : SendDecision :=
  match sendPrep env st r with
  | .error e => SendDecision.raise e
  | .ok (event_name, log_dict, log_extra) =>
    if noiseStart (env.filterLogLine r.message) && !jsonTruthy log_dict then SendDecision.drop
    else if allowedEventValues.contains event_name then SendDecision.accept event_name log_extra
    else SendDecision.drop

/-- Result of one `send` call: the handler state after the call, the
Posthog client calls attempted (in order, including a call that raised),
and the exception propagating out of `send`, if any. -/
structure SendResult where
  state : PosthogHandlerState
  calls : List PosthogCall
  error : Option PyError

/-- Forwarding step of `send`: one capture call per accepted event.  The
`warnings.warn(result)` under `Env().DEBUG_MODE` is a no-op to the model
(a warning is not an exception). -/
def captureStep (env : PosthogEnv) (st : PosthogHandlerState) (event_name : String)
    (props : List (String × Json)) (callsSoFar : List PosthogCall) : SendResult :=
  let c := PosthogCall.capture st._settings.val.app_id event_name props
  match env.captureErr with
  | some e => { state := st, calls := callsSoFar ++ [c], error := some e }
  | none => { state := st, calls := callsSoFar ++ [c], error := none }

/-- Identity and forwarding phase of `send` on a classification decision.
On the first accepted event with a non-empty user id the code sets
`self.logged_in = True` and only then calls `identify` and `alias`, so the
flag stays set even when either remote call raises. -/
def act (env : PosthogEnv) (st : PosthogHandlerState) : SendDecision → SendResult
  | SendDecision.raise e => { state := st, calls := [], error := some e }
  | SendDecision.drop => { state := st, calls := [], error := none }
  | SendDecision.accept event_name props =>
    let s := st._settings.val
    if !st.logged_in && !s.user_id.isEmpty then
      let st' := { st with logged_in := true }
      let c1 := PosthogCall.identify s.user_id
        [("email", Json.str s.user_email), ("primaryUsage", Json.str s.user_primary_usage)]
      match env.identifyErr with
      | some e => { state := st', calls := [c1], error := some e }
      | none =>
        let c2 := PosthogCall.aliasCall s.user_id s.app_id
        match env.aliasErr with
        | some e => { state := st', calls := [c1, c2], error := some e }
        | none => captureStep env st' event_name props [c1, c2]
    else
      captureStep env st event_name props []

/-- Model of `PosthogHandler.send`. -/
def send (env : PosthogEnv) (st : PosthogHandlerState) (r : LogRecord) : SendResult :=
  act env st (classify env st r)

/-- Observable outcome of one `emit` call: either `send` returned normally
or its exception was routed to `self.handleError(record)`; either way the
listed client calls were attempted. -/
inductive EmitOutcome where
  | normal (calls : List PosthogCall) : EmitOutcome
  | errorHandled (calls : List PosthogCall) : EmitOutcome

/-- Calls attempted during an `emit` outcome. -/
def outcomeCalls : EmitOutcome → List PosthogCall
  | EmitOutcome.normal calls => calls
  | EmitOutcome.errorHandled calls => calls

/-- Does `except Exception` in `emit` catch this error?  Every error the
modelled code can raise derives from `Exception`. -/
def exceptionCaught : PyError → Bool :=
  fun _ => true

/-- Exception-transparent view of `PosthogHandler.emit`: run `send`, and
re-raise only an exception that the `except Exception` clause would not
catch.  A `.error` result would be an exception reaching the logging
caller. -/
def emitEx (env : PosthogEnv) (st : PosthogHandlerState) (r : LogRecord) :
    Except PyError (PosthogHandlerState × EmitOutcome) :=
  let res := send env st r
  match res.error with
  | none => .ok (res.state, EmitOutcome.normal res.calls)
  | some e =>
    if exceptionCaught e then .ok (res.state, EmitOutcome.errorHandled res.calls)
    else .error e

/-- Model of `PosthogHandler.emit`: `send` wrapped in the catch-all that
routes failures to `handleError`. -/
def emit (env : PosthogEnv) (st : PosthogHandlerState) (r : LogRecord) :
    PosthogHandlerState × EmitOutcome :=
  let res := send env st r
  match res.error with
  | none => (res.state, EmitOutcome.normal res.calls)
  | some _ => (res.state, EmitOutcome.errorHandled res.calls)

/-- Capture calls among a list of client calls, as
`(distinct_id, event, properties)` triples. -/
def capturesOf (calls : List PosthogCall) : List (String × String × List (String × Json)) :=
  calls.filterMap fun c =>
    match c with
    | PosthogCall.capture d e p => some (d, e, p)
    | _ => none

/-- Identify and alias calls among a list of client calls. -/
def identityCallsOf (calls : List PosthogCall) : List PosthogCall :=
  calls.filter fun c =>
    match c with
    | PosthogCall.identify _ _ => true
    | PosthogCall.aliasCall _ _ => true
    | PosthogCall.capture _ _ _ => false

/-- Render a list of tagged payload lines as one log message, one
`TAG: payload` per line. -/
def logLinesJoin : List (String × String) → List Char
  | [] => []
  | (t, p) :: rest => t.toList ++ ':' :: ' ' :: (p.toList ++ '\n' :: logLinesJoin rest)

/-- Reading of the classification claim for `log_to_dict`: parse every
collected occurrence in order, keeping each tag with its parsed payload,
and raise the first JSON decoding failure. -/
def parseAllPayloads : List (String × String) → Except PyError (List (String × Json))
  | [] => .ok []
  | (t, p) :: rest =>
    match jsonLoads p with
    | .error e => .error e
    | .ok j =>
      match parseAllPayloads rest with
      | .error e => .error e
      | .ok js => .ok ((t, j) :: js)

/-- Environment where every Posthog client call succeeds and the message
filter passes text through unchanged. -/
def okEnv : PosthogEnv :=
  { identifyErr := none, aliasErr := none, captureErr := none, debugMode := false,
    filterLogLine := fun s => s }

/-- Sample settings snapshot with a non-empty user id. -/
def userSettings : LoggingSettings :=
  { app_name := "openbb", sub_app_name := "platform", app_id := "app-1",
    session_id := "sess-1", platform := "linux", python_version := "3.10",
    platform_version := "4.0", user_id := "user-1", user_email := "u@x.com",
    user_primary_usage := "research" }

/-- Sample settings snapshot with no user id. -/
def anonSettings : LoggingSettings :=
  { userSettings with user_id := "" }

/-- Freshly constructed handler holding `userSettings`. -/
def userState : PosthogHandlerState :=
  initHandler { addr := 0, val := userSettings }

/-- Freshly constructed handler holding `anonSettings`. -/
def anonState : PosthogHandlerState :=
  initHandler { addr := 1, val := anonSettings }

/-- Log record with the given level and message, no extras, no exception. -/
def mkRec (lvl : Int) (msg : String) : LogRecord :=
  { levelno := lvl, message := msg, extra := none, exc_info := none }

/-- Property bag `send` builds for a record whose filtered message is
exactly `STARTUP: {"a": 1}`. -/
def startupProps (env : PosthogEnv) (st : PosthogHandlerState) (r : LogRecord) :
    List (String × Json) :=
  removeKey ("message") (mergeDict (baseLogExtra env st r) [("a", Json.num 1)])

/-- Property bag `send` builds for a record whose filtered message is
exactly `CMD: {"cmd": "price"}`. -/
def cmdProps (env : PosthogEnv) (st : PosthogHandlerState) (r : LogRecord) :
    List (String × Json) :=
  removeKey ("message") (mergeDict (baseLogExtra env st r)
    [("CMD", Json.obj [("cmd", Json.str ("price"))])])

/-- Environment whose identify call raises a network failure. -/
def identifyFailEnv : PosthogEnv :=
  { okEnv with identifyErr := some (PyError.externalError ("identify failed")) }

/-- Environment whose alias call raises a network failure. -/
def aliasFailEnv : PosthogEnv :=
  { okEnv with aliasErr := some (PyError.externalError ("alias failed")) }

/-- Record carrying a structured command payload. -/
def cmdRec : LogRecord :=
  mkRec 20 "CMD: \x7b\"cmd\": \"price\"\x7d"

/-- Record carrying a structured startup payload, at warning severity. -/
def startupRec : LogRecord :=
  mkRec 30 "STARTUP: \x7b\"a\": 1\x7d"

/-- Record whose structured payload is malformed JSON. -/
def badJsonRec : LogRecord :=
  mkRec 40 "CMD: \x7boops"

/-- Record whose message is a queue noise marker with no structured tag. -/
def queueRec : LogRecord :=
  mkRec 30 "QUEUE something happened"

/-- Plain informational record with no structured tag. -/
def infoRec : LogRecord :=
  mkRec 20 "hello"

/-- Two tagged payload lines used to exercise the classifier. -/
def c8ps : List (String × String) :=
  [("STARTUP", "\x7b\"a\": 1\x7d"), ("CMD", "7")]

theorem lookup_insertAssoc (q k : String) (v : Json) (l : List (String × Json)) :
    lookupAssoc q (insertAssoc k v l) = if q = k then some v else lookupAssoc q l := by
  induction l with
  | nil =>
    by_cases h : q = k
    · subst h; simp [insertAssoc, lookupAssoc]
    · have h2 : ¬ k = q := fun hh => h hh.symm
      simp [insertAssoc, lookupAssoc, h, h2]
  | cons kv rest ih =>
    obtain ⟨k', v'⟩ := kv
    by_cases hk : k' = k
    · subst hk
      by_cases hq : k' = q
      · subst hq; simp [insertAssoc, lookupAssoc]
      · have h2 : ¬ q = k' := fun hh => hq hh.symm
        simp [insertAssoc, lookupAssoc, hq, h2]
    · by_cases hq : k' = q
      · subst hq
        simp [insertAssoc, hk, lookupAssoc, fun hh : k' = k => hk hh]
      · simp [insertAssoc, hk, lookupAssoc, hq, ih]

theorem insertAssoc_of_lookup_none (k : String) (v : Json) (l : List (String × Json))
    (h : lookupAssoc k l = none) : insertAssoc k v l = l ++ [(k, v)] := by
  induction l with
  | nil => simp [insertAssoc]
  | cons kv rest ih =>
    obtain ⟨k', v'⟩ := kv
    by_cases hk : k' = k
    · simp [lookupAssoc, hk] at h
    · simp only [lookupAssoc, if_neg hk] at h
      simp [insertAssoc, hk, ih h]

theorem lookup_append (q : String) (a b : List (String × Json)) :
    lookupAssoc q (a ++ b) =
      match lookupAssoc q a with
      | some v => some v
      | none => lookupAssoc q b := by
  induction a with
  | nil => simp [lookupAssoc]
  | cons kv rest ih =>
    obtain ⟨k', v'⟩ := kv
    by_cases hk : k' = q <;> simp [lookupAssoc, hk, ih]

theorem lookup_none_iff (q : String) (l : List (String × Json)) :
    lookupAssoc q l = none ↔ q ∉ l.map Prod.fst := by
  induction l with
  | nil => simp [lookupAssoc]
  | cons kv rest ih =>
    obtain ⟨k', v'⟩ := kv
    by_cases hk : k' = q
    · subst hk; simp [lookupAssoc]
    · have h2 : ¬ q = k' := fun hh => hk hh.symm
      simp [lookupAssoc, hk, ih, h2]

theorem mergeDict_nil (a : List (String × Json)) : mergeDict a [] = a := rfl

theorem mergeDict_cons (a : List (String × Json)) (kv : String × Json) (b : List (String × Json)) :
    mergeDict a (kv :: b) = mergeDict (insertAssoc kv.1 kv.2 a) b := rfl

theorem nodupKeys_cons_iff (k : String) (v : Json) (l : List (String × Json)) :
    NodupKeys ((k, v) :: l) ↔ k ∉ l.map Prod.fst ∧ NodupKeys l := by
  unfold NodupKeys
  rw [List.map_cons, List.nodup_cons]

theorem lookup_mergeDict (q : String) (a b : List (String × Json)) (hb : NodupKeys b) :
    lookupAssoc q (mergeDict a b) =
      match lookupAssoc q b with
      | some v => some v
      | none => lookupAssoc q a := by
  induction b generalizing a with
  | nil => simp [mergeDict_nil, lookupAssoc]
  | cons kv rest ih =>
    obtain ⟨k1, w1⟩ := kv
    obtain ⟨hmem, hn⟩ := (nodupKeys_cons_iff k1 w1 rest).mp hb
    rw [mergeDict_cons, ih _ hn]
    by_cases hq : q = k1
    · subst hq
      have hnone : lookupAssoc q rest = none := (lookup_none_iff q rest).mpr hmem
      simp [hnone, lookupAssoc, lookup_insertAssoc]
    · have h2 : ¬ k1 = q := fun hh => hq hh.symm
      cases hr : lookupAssoc q rest with
      | some w => simp [hr, lookupAssoc, h2]
      | none => simp [hr, lookupAssoc, lookup_insertAssoc, hq, h2]

theorem keys_insertAssoc_mem (k : String) (v : Json) (l : List (String × Json))
    (h : lookupAssoc k l ≠ none) :
    (insertAssoc k v l).map Prod.fst = l.map Prod.fst := by
  induction l with
  | nil => simp [lookupAssoc] at h
  | cons kv rest ih =>
    obtain ⟨k', v'⟩ := kv
    by_cases hk : k' = k
    · simp [insertAssoc, hk]
    · simp only [lookupAssoc, if_neg hk] at h
      simp [insertAssoc, hk, ih h]

theorem nodup_insertAssoc (k : String) (v : Json) (l : List (String × Json))
    (h : NodupKeys l) : NodupKeys (insertAssoc k v l) := by
  by_cases hl : lookupAssoc k l = none
  · rw [insertAssoc_of_lookup_none k v l hl]
    unfold NodupKeys at h ⊢
    rw [List.map_append]
    refine List.Nodup.append h (List.nodup_singleton k) ?_
    intro a ha hb
    simp only [List.map_cons, List.map_nil, List.mem_singleton] at hb
    subst hb
    exact (lookup_none_iff a l).mp hl ha
  · unfold NodupKeys at h ⊢
    rw [keys_insertAssoc_mem k v l hl]
    exact h

theorem nodup_mergeDict (a b : List (String × Json)) (h : NodupKeys a) :
    NodupKeys (mergeDict a b) := by
  induction b generalizing a with
  | nil => rw [mergeDict_nil]; exact h
  | cons kv rest ih =>
    rw [mergeDict_cons]
    exact ih _ (nodup_insertAssoc kv.1 kv.2 a h)

theorem lookup_removeKey_ne (q k : String) (l : List (String × Json)) (h : q ≠ k) :
    lookupAssoc q (removeKey k l) = lookupAssoc q l := by
  induction l with
  | nil => simp [removeKey]
  | cons kv rest ih =>
    obtain ⟨k', v'⟩ := kv
    by_cases hk : k' = k
    · have hne : ¬ (k = q) := fun hh => h hh.symm
      simp [removeKey, hk, lookupAssoc, hne]
    · simp [removeKey, hk, lookupAssoc, ih]

theorem lookup_removeKey_self (k : String) (l : List (String × Json)) (h : NodupKeys l) :
    lookupAssoc k (removeKey k l) = none := by
  induction l with
  | nil => simp [removeKey, lookupAssoc]
  | cons kv rest ih =>
    obtain ⟨k', v'⟩ := kv
    obtain ⟨hmem, hn⟩ := (nodupKeys_cons_iff k' v' rest).mp h
    by_cases hk : k' = k
    · subst hk
      simp only [removeKey, if_pos rfl]
      exact (lookup_none_iff k' rest).mpr hmem
    · simp [removeKey, hk, lookupAssoc, ih hn]

theorem nodup_extract_log_extra (st : PosthogHandlerState) (r : LogRecord) :
    NodupKeys (extract_log_extra st r) := by
  unfold extract_log_extra
  have hbase : NodupKeys
      [("appName", Json.str st._settings.val.app_name),
       ("subAppName", Json.str st._settings.val.sub_app_name),
       ("appId", Json.str st._settings.val.app_id),
       ("sessionId", Json.str st._settings.val.session_id),
       ("platform", Json.str st._settings.val.platform),
       ("pythonVersion", Json.str st._settings.val.python_version),
       ("obbPlatformVersion", Json.str st._settings.val.platform_version)] := by
    unfold NodupKeys
    simp only [List.map_cons, List.map_nil]
    decide
  have h1 : ∀ l : List (String × Json), NodupKeys l →
      NodupKeys (if st._settings.val.user_id.isEmpty then l
        else insertAssoc ("userId") (Json.str st._settings.val.user_id) l) := by
    intro l hl
    by_cases hu : st._settings.val.user_id.isEmpty
    · simpa [hu] using hl
    · simpa [hu] using nodup_insertAssoc _ _ l hl
  have h2 : ∀ l : List (String × Json), NodupKeys l →
      NodupKeys (match r.extra with
        | some ex => mergeDict l ex
        | none => l) := by
    intro l hl
    cases r.extra with
    | some ex => exact nodup_mergeDict l ex hl
    | none => exact hl
  have h3 : ∀ l : List (String × Json), NodupKeys l →
      NodupKeys (match r.exc_info with
        | some ti => insertAssoc ("exception")
            (Json.obj [("type", Json.str ti.1), ("value", Json.str ti.2)]) l
        | none => l) := by
    intro l hl
    cases r.exc_info with
    | some ti => exact nodup_insertAssoc _ _ l hl
    | none => exact hl
  exact h3 _ (h2 _ (h1 _ hbase))

theorem nodup_baseLogExtra (env : PosthogEnv) (st : PosthogHandlerState) (r : LogRecord) :
    NodupKeys (baseLogExtra env st r) :=
  nodup_mergeDict _ _ (nodup_extract_log_extra st r)

theorem startsWithList_length (p cs : List Char) (h : startsWithList p cs = true) :
    p.length ≤ cs.length := by
  induction p generalizing cs with
  | nil => simp
  | cons x xs ih =>
    cases cs with
    | nil => simp [startsWithList] at h
    | cons c cs' =>
      simp only [startsWithList, Bool.and_eq_true] at h
      have := ih cs' h.2
      simp only [List.length_cons]
      omega

theorem matchTag_length (cs : List Char) (t : String) (after : List Char)
    (h : matchTag cs = some (t, after)) : after.length < cs.length := by
  unfold matchTag at h
  split_ifs at h with h1 h2 h3
  · obtain ⟨he1, he2⟩ := Prod.mk.injEq .. ▸ Option.some.injEq .. ▸ h
    have hlen : 9 ≤ cs.length := by
      have := startsWithList_length _ cs h1
      simpa using this
    have : after = cs.drop 9 := by
      cases h
      rfl
    rw [this, List.length_drop]
    omega
  · have hlen : 5 ≤ cs.length := by
      have := startsWithList_length _ cs h2
      simpa using this
    have : after = cs.drop 5 := by
      cases h
      rfl
    rw [this, List.length_drop]
    omega
  · have hlen : 7 ≤ cs.length := by
      have := startsWithList_length _ cs h3
      simpa using this
    have : after = cs.drop 7 := by
      cases h
      rfl
    rw [this, List.length_drop]
    omega

theorem length_dropWhile_le (p : Char → Bool) (l : List Char) :
    (l.dropWhile p).length ≤ l.length := by
  induction l with
  | nil => simp [List.dropWhile]
  | cons c cs ih =>
    simp only [List.dropWhile]
    split
    · simp only [List.length_cons]
      omega
    · simp

theorem findallAux_nil (fuel : Nat) : findallAux fuel [] = [] := by
  cases fuel <;> rfl

theorem findallAux_congr (f : Nat) : ∀ (g : Nat) (cs : List Char),
    cs.length ≤ f → cs.length ≤ g → findallAux f cs = findallAux g cs := by
  induction f with
  | zero =>
    intro g cs hf _
    have : cs = [] := List.length_eq_zero.mp (Nat.le_zero.mp hf)
    subst this
    rw [findallAux_nil, findallAux_nil]
  | succ f ih =>
    intro g cs hf hg
    cases cs with
    | nil => rw [findallAux_nil, findallAux_nil]
    | cons c rest =>
      cases g with
      | zero => simp at hg
      | succ g' =>
        show (match matchTag (c :: rest) with
          | some (tag, after) =>
            (tag, String.mk (after.takeWhile (fun ch => ch != '\n'))) ::
              findallAux f (after.dropWhile (fun ch => ch != '\n'))
          | none => findallAux f rest) =
          (match matchTag (c :: rest) with
          | some (tag, after) =>
            (tag, String.mk (after.takeWhile (fun ch => ch != '\n'))) ::
              findallAux g' (after.dropWhile (fun ch => ch != '\n'))
          | none => findallAux g' rest)
        cases hm : matchTag (c :: rest) with
        | some ta =>
          obtain ⟨tag, after⟩ := ta
          have hlt := matchTag_length _ _ _ hm
          have hd := length_dropWhile_le (fun ch => ch != '\n') after
          simp only [List.length_cons] at hf hg hlt
          exact congrArg _ (ih g' _ (by omega) (by omega))
        | none =>
          simp only [List.length_cons] at hf hg
          exact ih g' rest (by omega) (by omega)

theorem findall_eq_of_matchTag (cs : List Char) (t : String) (after : List Char)
    (h : matchTag cs = some (t, after)) :
    findall cs = (t, String.mk (after.takeWhile (fun ch => ch != '\n'))) ::
      findall (after.dropWhile (fun ch => ch != '\n')) := by
  cases cs with
  | nil => simp [matchTag, startsWithList] at h
  | cons c rest =>
    show findallAux (rest.length + 1) (c :: rest) = _
    have step : findallAux (rest.length + 1) (c :: rest) =
        match matchTag (c :: rest) with
        | some (tag, after') =>
          (tag, String.mk (after'.takeWhile (fun ch => ch != '\n'))) ::
            findallAux rest.length (after'.dropWhile (fun ch => ch != '\n'))
        | none => findallAux rest.length rest := rfl
    rw [step, h]
    have hlt := matchTag_length _ _ _ h
    have hd := length_dropWhile_le (fun ch => ch != '\n') after
    simp only [List.length_cons] at hlt
    exact congrArg _ (findallAux_congr rest.length _ _ (by omega) (by omega))

theorem findall_eq_of_no_matchTag (c : Char) (rest : List Char)
    (h : matchTag (c :: rest) = none) : findall (c :: rest) = findall rest := by
  show findallAux (rest.length + 1) (c :: rest) = findall rest
  have step : findallAux (rest.length + 1) (c :: rest) =
      match matchTag (c :: rest) with
      | some (tag, after') =>
        (tag, String.mk (after'.takeWhile (fun ch => ch != '\n'))) ::
          findallAux rest.length (after'.dropWhile (fun ch => ch != '\n'))
      | none => findallAux rest.length rest := rfl
  rw [step, h]
  rfl

theorem takeWhile_no_newline (pcs r : List Char) (hp : '\n' ∉ pcs) :
    (pcs ++ '\n' :: r).takeWhile (fun ch => ch != '\n') = pcs := by
  induction pcs with
  | nil => simp [List.takeWhile]
  | cons c cs ih =>
    have hc : c ≠ '\n' := fun h => hp (h ▸ List.mem_cons_self c cs)
    have hcs : '\n' ∉ cs := fun h => hp (List.mem_cons_of_mem c h)
    simp only [List.cons_append, List.takeWhile]
    rw [show (c != '\n') = true from bne_iff_ne.mpr hc]
    simp [ih hcs]

theorem dropWhile_no_newline (pcs r : List Char) (hp : '\n' ∉ pcs) :
    (pcs ++ '\n' :: r).dropWhile (fun ch => ch != '\n') = '\n' :: r := by
  induction pcs with
  | nil => simp [List.dropWhile]
  | cons c cs ih =>
    have hc : c ≠ '\n' := fun h => hp (h ▸ List.mem_cons_self c cs)
    have hcs : '\n' ∉ cs := fun h => hp (List.mem_cons_of_mem c h)
    simp only [List.cons_append, List.dropWhile]
    rw [show (c != '\n') = true from bne_iff_ne.mpr hc]
    simp [ih hcs]

theorem matchTag_startup (xs : List Char) :
    matchTag ("STARTUP".toList ++ ':' :: ' ' :: xs) = some ("STARTUP", xs) := rfl

theorem matchTag_cmd (xs : List Char) :
    matchTag ("CMD".toList ++ ':' :: ' ' :: xs) = some ("CMD", xs) := rfl

theorem matchTag_error (xs : List Char) :
    matchTag ("ERROR".toList ++ ':' :: ' ' :: xs) = some ("ERROR", xs) := rfl

theorem matchTag_newline (r : List Char) : matchTag ('\n' :: r) = none := rfl

theorem findall_tag_line (t p : String) (r : List Char)
    (ht : t = "STARTUP" ∨ t = "CMD" ∨ t = "ERROR") (hp : '\n' ∉ p.toList) :
    findall (t.toList ++ ':' :: ' ' :: (p.toList ++ '\n' :: r)) = (t, p) :: findall r := by
  have hline : ∀ h : matchTag (t.toList ++ ':' :: ' ' :: (p.toList ++ '\n' :: r)) =
      some (t, p.toList ++ '\n' :: r),
      findall (t.toList ++ ':' :: ' ' :: (p.toList ++ '\n' :: r)) = (t, p) :: findall r := by
    intro h
    rw [findall_eq_of_matchTag _ _ _ h, takeWhile_no_newline _ _ hp, dropWhile_no_newline _ _ hp]
    have hmk : String.mk p.toList = p := rfl
    rw [hmk, findall_eq_of_no_matchTag _ _ (matchTag_newline r)]
  rcases ht with h | h | h <;> subst h
  · exact hline (matchTag_startup _)
  · exact hline (matchTag_cmd _)
  · exact hline (matchTag_error _)

theorem findall_logLinesJoin (ps : List (String × String))
    (ht : ∀ x ∈ ps, x.1 = "STARTUP" ∨ x.1 = "CMD" ∨ x.1 = "ERROR")
    (hp : ∀ x ∈ ps, '\n' ∉ x.2.toList) :
    findall (logLinesJoin ps) = ps := by
  induction ps with
  | nil => rfl
  | cons x rest ih =>
    obtain ⟨t, p⟩ := x
    show findall (t.toList ++ ':' :: ' ' :: (p.toList ++ '\n' :: logLinesJoin rest)) = _
    rw [findall_tag_line t p _ (ht (t, p) (List.mem_cons_self _ _)) (hp (t, p) (List.mem_cons_self _ _))]
    rw [ih (fun y hy => ht y (List.mem_cons_of_mem _ hy)) (fun y hy => hp y (List.mem_cons_of_mem _ hy))]

theorem logToDictAux_eq_parseAll (ps : List (String × String))
    (acc : List (String × Json)) (hnd : (ps.map Prod.fst).Nodup)
    (hdisj : ∀ x ∈ ps, lookupAssoc x.1 acc = none) :
    logToDictAux ps acc =
      match parseAllPayloads ps with
      | .error e => .error e
      | .ok js => .ok (acc ++ js) := by
  induction ps generalizing acc with
  | nil => simp [logToDictAux, parseAllPayloads]
  | cons x rest ih =>
    obtain ⟨t, p⟩ := x
    show (match jsonLoads p with
      | Except.error e => Except.error e
      | Except.ok j => logToDictAux rest (insertAssoc t j acc)) = _
    cases hj : jsonLoads p with
    | error e => simp [parseAllPayloads, hj]
    | ok j =>
      simp only [List.map_cons, List.nodup_cons] at hnd
      have hacc : insertAssoc t j acc = acc ++ [(t, j)] :=
        insertAssoc_of_lookup_none t j acc (hdisj (t, p) (List.mem_cons_self _ _))
      have hdisj' : ∀ x ∈ rest, lookupAssoc x.1 (acc ++ [(t, j)]) = none := by
        intro x hx
        rw [lookup_append, hdisj x (List.mem_cons_of_mem _ hx)]
        have hne : x.1 ≠ t := by
          intro hh
          exact hnd.1 (hh ▸ List.mem_map_of_mem Prod.fst hx)
        have hne2 : ¬ t = x.1 := fun hh => hne hh.symm
        simp [lookupAssoc, hne2]
      show logToDictAux rest (insertAssoc t j acc) =
        match parseAllPayloads ((t, p) :: rest) with
        | Except.error e => Except.error e
        | Except.ok js => Except.ok (acc ++ js)
      rw [hacc, ih _ hnd.2 hdisj']
      cases hr : parseAllPayloads rest with
      | error e => simp [parseAllPayloads, hj, hr]
      | ok js => simp [parseAllPayloads, hj, hr]

theorem sendPrep_no_tags (env : PosthogEnv) (st : PosthogHandlerState) (r : LogRecord)
    (h : log_to_dict (env.filterLogLine r.message) = .ok []) :
    sendPrep env st r =
      .ok ("log_" ++ strLower (getLevelName r.levelno), Json.obj [], baseLogExtra env st r) := by
  simp [sendPrep, h]

theorem classify_no_tags_noise (env : PosthogEnv) (st : PosthogHandlerState) (r : LogRecord)
    (h : log_to_dict (env.filterLogLine r.message) = .ok [])
    (hn : noiseStart (env.filterLogLine r.message) = true) :
    classify env st r = SendDecision.drop := by
  simp [classify, sendPrep_no_tags env st r h, hn, jsonTruthy]

theorem classify_no_tags_not_allowed (env : PosthogEnv) (st : PosthogHandlerState) (r : LogRecord)
    (h : log_to_dict (env.filterLogLine r.message) = .ok [])
    (ha : allowedEventValues.contains ("log_" ++ strLower (getLevelName r.levelno)) = false) :
    classify env st r = SendDecision.drop := by
  by_cases hn : noiseStart (env.filterLogLine r.message)
  · exact classify_no_tags_noise env st r h hn
  · have ha2 : "log_" ++ strLower (getLevelName r.levelno) ∉ allowedEventValues := by
      simpa using ha
    simp [classify, sendPrep_no_tags env st r h, hn, jsonTruthy, ha2]

theorem classify_accept_contains (env : PosthogEnv) (st : PosthogHandlerState) (r : LogRecord)
    (en : String) (pr : List (String × Json)) (h : classify env st r = SendDecision.accept en pr) :
    allowedEventValues.contains en = true := by
  unfold classify at h
  cases hp : sendPrep env st r with
  | error e => rw [hp] at h; exact absurd h (by simp)
  | ok triple =>
    obtain ⟨en', ld, pr'⟩ := triple
    rw [hp] at h
    by_cases hn : noiseStart (env.filterLogLine r.message) && !jsonTruthy ld
    · simp [hn] at h
    · simp only [hn, Bool.false_eq_true, if_false] at h
      by_cases ha : en' ∈ allowedEventValues
      · rw [if_pos (by simpa using ha : allowedEventValues.contains en' = true)] at h
        cases h
        simpa using ha
      · rw [if_neg (by simpa using ha : ¬ allowedEventValues.contains en' = true)] at h
        exact absurd h (by simp)

theorem act_raise_calls (env : PosthogEnv) (st : PosthogHandlerState) (e : PyError) :
    act env st (SendDecision.raise e) = { state := st, calls := [], error := some e } := rfl

theorem act_drop_calls (env : PosthogEnv) (st : PosthogHandlerState) :
    act env st SendDecision.drop = { state := st, calls := [], error := none } := rfl

theorem capture_mem_act_accept (env : PosthogEnv) (st : PosthogHandlerState)
    (en d e : String) (pr p : List (String × Json))
    (h : PosthogCall.capture d e p ∈ (act env st (SendDecision.accept en pr)).calls) :
    e = en ∧ p = pr ∧ d = st._settings.val.app_id := by
  unfold act at h
  by_cases hc : !st.logged_in && !st._settings.val.user_id.isEmpty
  · simp only [hc, if_true] at h
    cases hi : env.identifyErr with
    | some e' =>
      rw [hi] at h
      simp at h
    | none =>
      rw [hi] at h
      cases ha : env.aliasErr with
      | some e' =>
        rw [ha] at h
        simp at h
      | none =>
        rw [ha] at h
        unfold captureStep at h
        cases hcap : env.captureErr with
        | some e' =>
          rw [hcap] at h
          simp at h
          obtain ⟨h1, h2, h3⟩ := h
          subst h2
          subst h3
          exact ⟨rfl, rfl, h1⟩
        | none =>
          rw [hcap] at h
          simp at h
          obtain ⟨h1, h2, h3⟩ := h
          subst h2
          subst h3
          exact ⟨rfl, rfl, h1⟩
  · simp only [hc, if_false] at h
    unfold captureStep at h
    cases hcap : env.captureErr with
    | some e' =>
      rw [hcap] at h
      simp at h
      obtain ⟨h1, h2, h3⟩ := h
      subst h2
      subst h3
      exact ⟨rfl, rfl, h1⟩
    | none =>
      rw [hcap] at h
      simp at h
      obtain ⟨h1, h2, h3⟩ := h
      subst h2
      subst h3
      exact ⟨rfl, rfl, h1⟩

theorem act_accept_first_identity (env : PosthogEnv) (st : PosthogHandlerState)
    (en : String) (pr : List (String × Json))
    (hlog : st.logged_in = false) (huid : st._settings.val.user_id.isEmpty = false)
    (hid : env.identifyErr = none) (hal : env.aliasErr = none) :
    (act env st (SendDecision.accept en pr)).calls =
      [PosthogCall.identify st._settings.val.user_id
        [("email", Json.str st._settings.val.user_email),
         ("primaryUsage", Json.str st._settings.val.user_primary_usage)],
       PosthogCall.aliasCall st._settings.val.user_id st._settings.val.app_id,
       PosthogCall.capture st._settings.val.app_id en pr] ∧
    (act env st (SendDecision.accept en pr)).state = { st with logged_in := true } := by
  simp only [act]
  rw [hlog, huid, hid, hal]
  simp only [Bool.not_false, Bool.and_self, if_true]
  unfold captureStep
  cases hcap : env.captureErr <;> simp

theorem act_accept_identify_raises (env : PosthogEnv) (st : PosthogHandlerState)
    (en : String) (pr : List (String × Json)) (e : PyError)
    (hlog : st.logged_in = false) (huid : st._settings.val.user_id.isEmpty = false)
    (hid : env.identifyErr = some e) :
    act env st (SendDecision.accept en pr) =
      { state := { st with logged_in := true },
        calls := [PosthogCall.identify st._settings.val.user_id
          [("email", Json.str st._settings.val.user_email),
           ("primaryUsage", Json.str st._settings.val.user_primary_usage)]],
        error := some e } := by
  simp only [act]
  rw [hlog, huid, hid]
  simp

theorem act_accept_alias_raises (env : PosthogEnv) (st : PosthogHandlerState)
    (en : String) (pr : List (String × Json)) (e : PyError)
    (hlog : st.logged_in = false) (huid : st._settings.val.user_id.isEmpty = false)
    (hid : env.identifyErr = none) (hal : env.aliasErr = some e) :
    act env st (SendDecision.accept en pr) =
      { state := { st with logged_in := true },
        calls := [PosthogCall.identify st._settings.val.user_id
          [("email", Json.str st._settings.val.user_email),
           ("primaryUsage", Json.str st._settings.val.user_primary_usage)],
          PosthogCall.aliasCall st._settings.val.user_id st._settings.val.app_id],
        error := some e } := by
  simp only [act]
  rw [hlog, huid, hid, hal]
  simp

theorem act_logged_in_no_identity (env : PosthogEnv) (st : PosthogHandlerState)
    (d : SendDecision) (hlog : st.logged_in = true) :
    identityCallsOf (act env st d).calls = [] ∧ (act env st d).state = st := by
  cases d with
  | raise e => simp [act, identityCallsOf]
  | drop => simp [act, identityCallsOf]
  | accept en pr =>
    simp only [act]
    rw [hlog]
    simp only [Bool.not_true, Bool.false_and, Bool.false_eq_true, if_false]
    unfold captureStep
    cases hcap : env.captureErr <;> simp [identityCallsOf]

theorem send_logged_in_no_identity (env : PosthogEnv) (st : PosthogHandlerState)
    (r : LogRecord) (hlog : st.logged_in = true) :
    identityCallsOf (send env st r).calls = [] ∧ (send env st r).state = st :=
  act_logged_in_no_identity env st (classify env st r) hlog

theorem capturesOf_act_accept (env : PosthogEnv) (st : PosthogHandlerState)
    (en : String) (pr : List (String × Json))
    (hid : env.identifyErr = none) (hal : env.aliasErr = none) :
    capturesOf (act env st (SendDecision.accept en pr)).calls =
      [(st._settings.val.app_id, en, pr)] := by
  simp only [act]
  by_cases hc : !st.logged_in && !st._settings.val.user_id.isEmpty
  · rw [if_pos hc, hid, hal]
    unfold captureStep
    cases hcap : env.captureErr <;> simp [capturesOf]
  · rw [if_neg hc]
    unfold captureStep
    cases hcap : env.captureErr <;> simp [capturesOf]

theorem sendPrep_startup_obj (env : PosthogEnv) (st : PosthogHandlerState) (r : LogRecord)
    (k0 : String) (v0 : Json) (tl : List (String × Json)) (fields : List (String × Json))
    (h : log_to_dict (env.filterLogLine r.message) = .ok ((k0, v0) :: tl))
    (hs : lookupAssoc ("STARTUP") ((k0, v0) :: tl) = some (Json.obj fields)) :
    sendPrep env st r = .ok ("log_" ++ strLower k0, Json.obj fields,
      removeKey ("message") (mergeDict (baseLogExtra env st r) fields)) := by
  simp only [sendPrep, h, hs]

theorem sendPrep_no_startup (env : PosthogEnv) (st : PosthogHandlerState) (r : LogRecord)
    (k0 : String) (v0 : Json) (tl : List (String × Json))
    (h : log_to_dict (env.filterLogLine r.message) = .ok ((k0, v0) :: tl))
    (hs : lookupAssoc ("STARTUP") ((k0, v0) :: tl) = none) :
    sendPrep env st r = .ok ("log_" ++ strLower k0, Json.obj ((k0, v0) :: tl),
      removeKey ("message") (mergeDict (baseLogExtra env st r) ((k0, v0) :: tl))) := by
  simp only [sendPrep, h, hs]

theorem sendPrep_startup_not_mapping (env : PosthogEnv) (st : PosthogHandlerState) (r : LogRecord)
    (k0 : String) (v0 : Json) (tl : List (String × Json)) (v : Json)
    (h : log_to_dict (env.filterLogLine r.message) = .ok ((k0, v0) :: tl))
    (hs : lookupAssoc ("STARTUP") ((k0, v0) :: tl) = some v)
    (hv : ∀ fields, v ≠ Json.obj fields) :
    sendPrep env st r = .error (PyError.typeError ("argument after ** must be a mapping")) := by
  simp only [sendPrep, h, hs]

theorem lookup_baseLogExtra_level (env : PosthogEnv) (st : PosthogHandlerState) (r : LogRecord) :
    lookupAssoc ("level") (baseLogExtra env st r) = some (Json.str (getLevelName r.levelno)) := by
  unfold baseLogExtra
  rw [lookup_mergeDict _ _ _ (by unfold NodupKeys; simp only [List.map_cons, List.map_nil]; decide)]
  rfl

theorem lookup_baseLogExtra_ne (env : PosthogEnv) (st : PosthogHandlerState) (r : LogRecord)
    (q : String) (h1 : q ≠ "level") (h2 : q ≠ "message") :
    lookupAssoc q (baseLogExtra env st r) = lookupAssoc q (extract_log_extra st r) := by
  unfold baseLogExtra
  rw [lookup_mergeDict _ _ _ (by unfold NodupKeys; simp only [List.map_cons, List.map_nil]; decide)]
  have g1 : ¬ ("level" = q) := fun hh => h1 hh.symm
  have g2 : ¬ ("message" = q) := fun hh => h2 hh.symm
  simp [lookupAssoc, g1, g2]

theorem lookup_extract_of_no_extra (st : PosthogHandlerState) (r : LogRecord) (q : String)
    (hx : r.extra = none) (hq1 : q ≠ "userId") (hq2 : q ≠ "exception") :
    lookupAssoc q (extract_log_extra st r) =
      lookupAssoc q
        [("appName", Json.str st._settings.val.app_name),
         ("subAppName", Json.str st._settings.val.sub_app_name),
         ("appId", Json.str st._settings.val.app_id),
         ("sessionId", Json.str st._settings.val.session_id),
         ("platform", Json.str st._settings.val.platform),
         ("pythonVersion", Json.str st._settings.val.python_version),
         ("obbPlatformVersion", Json.str st._settings.val.platform_version)] := by
  simp only [extract_log_extra, hx]
  cases hexc : r.exc_info with
  | some ti =>
    rw [lookup_insertAssoc, if_neg hq2]
    by_cases hu : st._settings.val.user_id.isEmpty
    · simp [hu]
    · simp only [hu, Bool.false_eq_true, if_false]
      rw [lookup_insertAssoc, if_neg hq1]
  | none =>
    by_cases hu : st._settings.val.user_id.isEmpty
    · simp [hu]
    · simp only [hu, Bool.false_eq_true, if_false]
      rw [lookup_insertAssoc, if_neg hq1]

theorem classify_startup_literal (env : PosthogEnv) (st : PosthogHandlerState) (r : LogRecord)
    (h : env.filterLogLine r.message = "STARTUP: \x7b\"a\": 1\x7d") :
    classify env st r = SendDecision.accept ("log_startup") (startupProps env st r) := by
  have hld : log_to_dict (env.filterLogLine r.message) =
      .ok [("STARTUP", Json.obj [("a", Json.num 1)])] := by
    rw [h]
    rfl
  have hsp : sendPrep env st r = .ok ("log_startup", Json.obj [("a", Json.num 1)],
      startupProps env st r) :=
    sendPrep_startup_obj env st r ("STARTUP") (Json.obj [("a", Json.num 1)]) [] _ hld rfl
  unfold classify
  rw [hsp, h]
  rfl

theorem classify_cmd_literal (env : PosthogEnv) (st : PosthogHandlerState) (r : LogRecord)
    (h : env.filterLogLine r.message = "CMD: \x7b\"cmd\": \"price\"\x7d") :
    classify env st r = SendDecision.accept ("log_cmd") (cmdProps env st r) := by
  have hld : log_to_dict (env.filterLogLine r.message) =
      .ok [("CMD", Json.obj [("cmd", Json.str ("price"))])] := by
    rw [h]
    rfl
  have hsp : sendPrep env st r = .ok ("log_cmd",
      Json.obj [("CMD", Json.obj [("cmd", Json.str ("price"))])], cmdProps env st r) :=
    sendPrep_no_startup env st r ("CMD") (Json.obj [("cmd", Json.str ("price"))]) [] hld rfl
  unfold classify
  rw [hsp, h]
  rfl

theorem emit_outcome_calls (env : PosthogEnv) (st : PosthogHandlerState) (r : LogRecord) :
    outcomeCalls (emit env st r).2 = (send env st r).calls := by
  simp only [emit]
  cases herr : (send env st r).error with
  | none => simp [outcomeCalls]
  | some e => simp [outcomeCalls]

/-- C1: every exception raised while `send` processes a record —
classification, JSON payload parsing, enrichment, identity, or
forwarding — is caught by `emit` and routed to the handler-error path, so
no exception ever reaches the logging caller; in particular a malformed
structured payload makes `send` raise and `emit` still returns normally
with the error handled. -/
theorem c1_emit_catches_all :
    (∀ (env : PosthogEnv) (st : PosthogHandlerState) (r : LogRecord),
      ∃ v, emitEx env st r = .ok v) ∧
    ((send okEnv anonState badJsonRec).error.isSome = true ∧
      emitEx okEnv anonState badJsonRec = .ok (anonState, EmitOutcome.errorHandled [])) := by
  constructor
  · intro env st r
    cases herr : (send env st r).error with
    | none =>
      refine ⟨((send env st r).state, EmitOutcome.normal (send env st r).calls), ?_⟩
      simp only [emitEx]
      rw [herr]
    | some e =>
      refine ⟨((send env st r).state, EmitOutcome.errorHandled (send env st r).calls), ?_⟩
      simp only [emitEx]
      rw [herr]
      rfl
  · exact ⟨rfl, rfl⟩

/-- C2: a capture call is issued only for an event name inside the fixed
allowed set, and a record with no structured tag whose severity-derived
event name is outside that set produces no client call at all. -/
theorem c2_captures_only_allowed :
    (∀ (env : PosthogEnv) (st : PosthogHandlerState) (r : LogRecord) (d en : String)
      (p : List (String × Json)),
      PosthogCall.capture d en p ∈ (send env st r).calls →
      allowedEventValues.contains en = true) ∧
    (∀ (env : PosthogEnv) (st : PosthogHandlerState) (r : LogRecord),
      log_to_dict (env.filterLogLine r.message) = .ok [] →
      allowedEventValues.contains ("log_" ++ strLower (getLevelName r.levelno)) = false →
      (send env st r).calls = []) := by
  constructor
  · intro env st r d en p hmem
    unfold send at hmem
    cases hd : classify env st r with
    | raise e =>
      rw [hd, act_raise_calls] at hmem
      simp at hmem
    | drop =>
      rw [hd, act_drop_calls] at hmem
      simp at hmem
    | accept en' pr' =>
      rw [hd] at hmem
      obtain ⟨h1, h2, h3⟩ := capture_mem_act_accept env st en' d en pr' p hmem
      rw [h1]
      exact classify_accept_contains env st r en' pr' hd
  · intro env st r h ha
    unfold send
    rw [classify_no_tags_not_allowed env st r h ha, act_drop_calls]

/-- Witness for C2 at concrete inputs: a structured command record leads
to a capture with an allowed event name, and a plain `INFO` record (event
name `log_info`, outside the allowed set) produces no call. -/
theorem c2_witness :
    allowedEventValues.contains ("log_cmd") = true ∧
    (send okEnv anonState infoRec).calls = [] := by
  constructor
  · have hmem : PosthogCall.capture ("app-1") ("log_cmd") (cmdProps okEnv anonState cmdRec) ∈
        (send okEnv anonState cmdRec).calls := by
      rw [show (send okEnv anonState cmdRec).calls =
        [PosthogCall.capture ("app-1") ("log_cmd") (cmdProps okEnv anonState cmdRec)] from rfl]
      exact List.mem_singleton_self _
    exact c2_captures_only_allowed.1 okEnv anonState cmdRec ("app-1") ("log_cmd") _ hmem
  · exact c2_captures_only_allowed.2 okEnv anonState infoRec rfl rfl

/-- C3: on a sink whose settings expose a non-empty user id, the first
accepted event issues exactly one identify call (user id with email and
primary usage) followed by exactly one alias call (user id with app id)
and then the capture; the flag is set, and every later `send` on the
resulting state issues neither identify nor alias again. -/
theorem c3_identity_once :
    ∀ (env : PosthogEnv) (st : PosthogHandlerState) (r : LogRecord) (en : String)
      (pr : List (String × Json)),
    st.logged_in = false →
    st._settings.val.user_id.isEmpty = false →
    env.identifyErr = none → env.aliasErr = none →
    classify env st r = SendDecision.accept en pr →
    ((send env st r).calls =
      [PosthogCall.identify st._settings.val.user_id
        [("email", Json.str st._settings.val.user_email),
         ("primaryUsage", Json.str st._settings.val.user_primary_usage)],
       PosthogCall.aliasCall st._settings.val.user_id st._settings.val.app_id,
       PosthogCall.capture st._settings.val.app_id en pr] ∧
     (send env st r).state.logged_in = true ∧
     ∀ (env2 : PosthogEnv) (r2 : LogRecord),
       identityCallsOf (send env2 (send env st r).state r2).calls = []) := by
  intro env st r en pr hlog huid hid hal hacc
  have hsend : send env st r = act env st (SendDecision.accept en pr) := by
    unfold send
    rw [hacc]
  obtain ⟨hcalls, hstate⟩ := act_accept_first_identity env st en pr hlog huid hid hal
  refine ⟨?_, ?_, ?_⟩
  · rw [hsend]
    exact hcalls
  · rw [hsend, hstate]
  · intro env2 r2
    have hl : (send env st r).state.logged_in = true := by rw [hsend, hstate]
    exact (send_logged_in_no_identity env2 _ r2 hl).1

/-- Witness for C3: a fresh sink with a user id processing a structured
command record issues the identify, alias and capture calls once, and a
second send on the updated state issues no identity call. -/
theorem c3_witness :
    (send okEnv userState cmdRec).calls =
      [PosthogCall.identify ("user-1")
        [("email", Json.str ("u@x.com")), ("primaryUsage", Json.str ("research"))],
       PosthogCall.aliasCall ("user-1") ("app-1"),
       PosthogCall.capture ("app-1") ("log_cmd") (cmdProps okEnv userState cmdRec)] ∧
    (send okEnv userState cmdRec).state.logged_in = true ∧
    ∀ (env2 : PosthogEnv) (r2 : LogRecord),
      identityCallsOf (send env2 (send okEnv userState cmdRec).state r2).calls = [] :=
  c3_identity_once okEnv userState cmdRec ("log_cmd") (cmdProps okEnv userState cmdRec)
    rfl rfl rfl rfl (classify_cmd_literal okEnv userState cmdRec rfl)

/-- C7: a record with no structured tag whose filtered line begins with a
noise marker (QUEUE, START, END or INPUT:) is discarded: `send` returns
without touching state and without issuing any client call. -/
theorem c7_noise_discarded :
    ∀ (env : PosthogEnv) (st : PosthogHandlerState) (r : LogRecord),
    log_to_dict (env.filterLogLine r.message) = .ok [] →
    noiseStart (env.filterLogLine r.message) = true →
    send env st r = { state := st, calls := [], error := none } := by
  intro env st r h hn
  unfold send
  rw [classify_no_tags_noise env st r h hn, act_drop_calls]

/-- Witness for C7: the queue marker record is dropped with no call. -/
theorem c7_witness :
    send okEnv anonState queueRec = { state := anonState, calls := [], error := none } :=
  c7_noise_discarded okEnv anonState queueRec rfl rfl

/-- C9: storing a settings object and reading the `settings` property back
yields an equal value at a fresh address: a deep copy, never the stored
reference itself. -/
theorem c9_settings_roundtrip :
    ∀ (st : PosthogHandlerState) (s : PyObj LoggingSettings) (freshAddr : Nat),
    freshAddr ≠ s.addr →
    ((settings_get (settings_set st s) freshAddr).val = s.val ∧
     (settings_get (settings_set st s) freshAddr).addr ≠ (settings_set st s)._settings.addr) := by
  intro st s fresh h
  exact ⟨rfl, h⟩

/-- Witness for C9 at a concrete store and a concrete fresh address. -/
theorem c9_witness :
    (settings_get (settings_set userState { addr := 5, val := anonSettings }) 6).val =
      ({ addr := 5, val := anonSettings } : PyObj LoggingSettings).val ∧
    (settings_get (settings_set userState { addr := 5, val := anonSettings }) 6).addr ≠
      (settings_set userState { addr := 5, val := anonSettings })._settings.addr :=
  c9_settings_roundtrip userState { addr := 5, val := anonSettings } 6 (by decide)

/-- C10: `logged_in` is set before identify and alias are called, so when
either remote identity call raises on the first accepted event with a
non-empty user id, the flag stays true, the exception propagates out of
`send` (to be handled by `emit`), no capture is attempted on that call,
and no later `emit` on the same instance ever attempts identify or alias
again: the one-time identity sequence is neither retried nor atomic. -/
theorem c10_flag_set_before_identity :
    (∀ (env : PosthogEnv) (st : PosthogHandlerState) (r : LogRecord) (en : String)
      (pr : List (String × Json)) (e : PyError),
      st.logged_in = false →
      st._settings.val.user_id.isEmpty = false →
      env.identifyErr = some e →
      classify env st r = SendDecision.accept en pr →
      ((send env st r).state.logged_in = true ∧
       (send env st r).error = some e ∧
       capturesOf (send env st r).calls = [] ∧
       ∀ (env2 : PosthogEnv) (r2 : LogRecord),
         identityCallsOf (outcomeCalls (emit env2 (send env st r).state r2).2) = [])) ∧
    (∀ (env : PosthogEnv) (st : PosthogHandlerState) (r : LogRecord) (en : String)
      (pr : List (String × Json)) (e : PyError),
      st.logged_in = false →
      st._settings.val.user_id.isEmpty = false →
      env.identifyErr = none →
      env.aliasErr = some e →
      classify env st r = SendDecision.accept en pr →
      ((send env st r).state.logged_in = true ∧
       (send env st r).error = some e ∧
       ∀ (env2 : PosthogEnv) (r2 : LogRecord),
         identityCallsOf (outcomeCalls (emit env2 (send env st r).state r2).2) = [])) := by
  constructor
  · intro env st r en pr e hlog huid hid hacc
    have hsend : send env st r =
        { state := { st with logged_in := true },
          calls := [PosthogCall.identify st._settings.val.user_id
            [("email", Json.str st._settings.val.user_email),
             ("primaryUsage", Json.str st._settings.val.user_primary_usage)]],
          error := some e } := by
      unfold send
      rw [hacc]
      exact act_accept_identify_raises env st en pr e hlog huid hid
    have hl : (send env st r).state.logged_in = true := by rw [hsend]
    refine ⟨hl, by rw [hsend], by rw [hsend]; rfl, ?_⟩
    intro env2 r2
    rw [emit_outcome_calls]
    exact (send_logged_in_no_identity env2 _ r2 hl).1
  · intro env st r en pr e hlog huid hid hal hacc
    have hsend : send env st r =
        { state := { st with logged_in := true },
          calls := [PosthogCall.identify st._settings.val.user_id
            [("email", Json.str st._settings.val.user_email),
             ("primaryUsage", Json.str st._settings.val.user_primary_usage)],
            PosthogCall.aliasCall st._settings.val.user_id st._settings.val.app_id],
          error := some e } := by
      unfold send
      rw [hacc]
      exact act_accept_alias_raises env st en pr e hlog huid hid hal
    have hl : (send env st r).state.logged_in = true := by rw [hsend]
    refine ⟨hl, by rw [hsend], ?_⟩
    intro env2 r2
    rw [emit_outcome_calls]
    exact (send_logged_in_no_identity env2 _ r2 hl).1

/-- Witness for C10: with a failing identify (resp. alias) call, the flag
ends up true, the error propagates out of `send`, and a later emit on the
same instance attempts no identity call. -/
theorem c10_witness :
    ((send identifyFailEnv userState cmdRec).state.logged_in = true ∧
     (send identifyFailEnv userState cmdRec).error =
       some (PyError.externalError ("identify failed")) ∧
     capturesOf (send identifyFailEnv userState cmdRec).calls = [] ∧
     ∀ (env2 : PosthogEnv) (r2 : LogRecord),
       identityCallsOf
         (outcomeCalls (emit env2 (send identifyFailEnv userState cmdRec).state r2).2) = []) ∧
    ((send aliasFailEnv userState cmdRec).state.logged_in = true ∧
     (send aliasFailEnv userState cmdRec).error =
       some (PyError.externalError ("alias failed")) ∧
     ∀ (env2 : PosthogEnv) (r2 : LogRecord),
       identityCallsOf
         (outcomeCalls (emit env2 (send aliasFailEnv userState cmdRec).state r2).2) = []) :=
  ⟨c10_flag_set_before_identity.1 identifyFailEnv userState cmdRec ("log_cmd")
      (cmdProps identifyFailEnv userState cmdRec) (PyError.externalError ("identify failed"))
      rfl rfl rfl (classify_cmd_literal identifyFailEnv userState cmdRec rfl),
   c10_flag_set_before_identity.2 aliasFailEnv userState cmdRec ("log_cmd")
      (cmdProps aliasFailEnv userState cmdRec) (PyError.externalError ("alias failed"))
      rfl rfl rfl rfl (classify_cmd_literal aliasFailEnv userState cmdRec rfl)⟩

/-- C4 counterexample: for the record whose filtered message is
`STARTUP: \x7b"a": 1\x7d` the capture's property bag does contain a
`level` key (the severity name), so the claim that the bag contains
neither `message` nor `level` is false of the code: only `message` is
popped, `level` survives the structured merge. -/
theorem c4_counterexample :
    capturesOf (send okEnv anonState startupRec).calls =
      [("app-1", "log_startup", startupProps okEnv anonState startupRec)] ∧
    lookupAssoc ("level") (startupProps okEnv anonState startupRec) =
      some (Json.str ("WARNING")) :=
  ⟨rfl, rfl⟩

/-- C4 (amended): for every record whose filtered message is
`STARTUP: \x7b"a": 1\x7d`, the capture call's event name is `log_startup`
and its property bag maps `a` to `1` and has no `message` key; the bag
does keep a `level` key holding the severity name, because the code pops
only `message` after the structured merge. -/
theorem c4_startup_event :
    ∀ (env : PosthogEnv) (st : PosthogHandlerState) (r : LogRecord),
    env.filterLogLine r.message = "STARTUP: \x7b\"a\": 1\x7d" →
    env.identifyErr = none → env.aliasErr = none →
    (capturesOf (send env st r).calls =
      [(st._settings.val.app_id, "log_startup", startupProps env st r)] ∧
     lookupAssoc ("a") (startupProps env st r) = some (Json.num 1) ∧
     lookupAssoc ("message") (startupProps env st r) = none ∧
     lookupAssoc ("level") (startupProps env st r) =
       some (Json.str (getLevelName r.levelno))) := by
  intro env st r h hid hal
  have hnod1 : NodupKeys [(("a" : String), Json.num 1)] := by
    unfold NodupKeys
    simp only [List.map_cons, List.map_nil]
    decide
  refine ⟨?_, ?_, ?_, ?_⟩
  · show capturesOf (act env st (classify env st r)).calls = _
    rw [classify_startup_literal env st r h]
    exact capturesOf_act_accept env st _ _ hid hal
  · unfold startupProps
    rw [lookup_removeKey_ne _ _ _ (by decide), lookup_mergeDict _ _ _ hnod1]
    rfl
  · unfold startupProps
    exact lookup_removeKey_self _ _ (nodup_mergeDict _ _ (nodup_baseLogExtra env st r))
  · unfold startupProps
    rw [lookup_removeKey_ne _ _ _ (by decide), lookup_mergeDict _ _ _ hnod1]
    show lookupAssoc ("level") (baseLogExtra env st r) = _
    exact lookup_baseLogExtra_level env st r

/-- Witness for the amended C4 at the concrete startup record. -/
theorem c4_witness :
    capturesOf (send okEnv anonState startupRec).calls =
      [("app-1", "log_startup", startupProps okEnv anonState startupRec)] ∧
    lookupAssoc ("a") (startupProps okEnv anonState startupRec) = some (Json.num 1) ∧
    lookupAssoc ("message") (startupProps okEnv anonState startupRec) = none ∧
    lookupAssoc ("level") (startupProps okEnv anonState startupRec) =
      some (Json.str (getLevelName startupRec.levelno)) :=
  c4_startup_event okEnv anonState startupRec rfl rfl rfl

/-- C5: when the tag-to-payload mapping is non-empty the event name is
`log_` followed by the first-found tag lowercased; a `STARTUP` entry's
parsed payload replaces the mapping as the property bag (raising
`TypeError` if it is not a mapping), otherwise the full mapping is the
merged payload; and the `message` key is removed from the merged
properties. -/
theorem c5_structured_event :
    ∀ (env : PosthogEnv) (st : PosthogHandlerState) (r : LogRecord) (k0 : String)
      (v0 : Json) (tl : List (String × Json)),
    log_to_dict (env.filterLogLine r.message) = .ok ((k0, v0) :: tl) →
    ((∀ fields : List (String × Json),
      lookupAssoc ("STARTUP") ((k0, v0) :: tl) = some (Json.obj fields) →
      sendPrep env st r = .ok ("log_" ++ strLower k0, Json.obj fields,
        removeKey ("message") (mergeDict (baseLogExtra env st r) fields)) ∧
      lookupAssoc ("message")
        (removeKey ("message") (mergeDict (baseLogExtra env st r) fields)) = none) ∧
     (lookupAssoc ("STARTUP") ((k0, v0) :: tl) = none →
      sendPrep env st r = .ok ("log_" ++ strLower k0, Json.obj ((k0, v0) :: tl),
        removeKey ("message") (mergeDict (baseLogExtra env st r) ((k0, v0) :: tl))) ∧
      lookupAssoc ("message")
        (removeKey ("message") (mergeDict (baseLogExtra env st r) ((k0, v0) :: tl))) = none)) := by
  intro env st r k0 v0 tl h
  constructor
  · intro fields hs
    exact ⟨sendPrep_startup_obj env st r k0 v0 tl fields h hs,
      lookup_removeKey_self _ _ (nodup_mergeDict _ _ (nodup_baseLogExtra env st r))⟩
  · intro hs
    exact ⟨sendPrep_no_startup env st r k0 v0 tl h hs,
      lookup_removeKey_self _ _ (nodup_mergeDict _ _ (nodup_baseLogExtra env st r))⟩

/-- Witness for C5 on both branches: a startup record (payload replaces
the mapping) and a command record (full mapping kept). -/
theorem c5_witness :
    (sendPrep okEnv anonState startupRec = .ok ("log_startup", Json.obj [("a", Json.num 1)],
      startupProps okEnv anonState startupRec) ∧
     lookupAssoc ("message") (startupProps okEnv anonState startupRec) = none) ∧
    (sendPrep okEnv anonState cmdRec = .ok ("log_cmd",
      Json.obj [("CMD", Json.obj [("cmd", Json.str ("price"))])],
      cmdProps okEnv anonState cmdRec) ∧
     lookupAssoc ("message") (cmdProps okEnv anonState cmdRec) = none) :=
  ⟨(c5_structured_event okEnv anonState startupRec ("STARTUP") (Json.obj [("a", Json.num 1)])
      [] rfl).1 [("a", Json.num 1)] rfl,
   (c5_structured_event okEnv anonState cmdRec ("CMD")
      (Json.obj [("cmd", Json.str ("price"))]) [] rfl).2 rfl⟩

/-- C6 counterexample: for the record whose filtered message is
`CMD: \x7b"cmd": "price"\x7d` the capture's property bag has no top-level
`cmd` key: the parsed payload stays namespaced under its `CMD` tag,
because only a `STARTUP` payload replaces the mapping before the merge. -/
theorem c6_counterexample :
    capturesOf (send okEnv anonState cmdRec).calls =
      [("app-1", "log_cmd", cmdProps okEnv anonState cmdRec)] ∧
    lookupAssoc ("cmd") (cmdProps okEnv anonState cmdRec) = none ∧
    lookupAssoc ("CMD") (cmdProps okEnv anonState cmdRec) =
      some (Json.obj [("cmd", Json.str ("price"))]) :=
  ⟨rfl, rfl, rfl⟩

/-- C6 (amended): for every record (without caller extras) whose filtered
message is `CMD: \x7b"cmd": "price"\x7d`, the capture call's event name is
`log_cmd` and its property bag contains the seeded context fields together
with a `CMD` entry holding the parsed payload `\x7b"cmd": "price"\x7d`;
the bag has no top-level `cmd` key. -/
theorem c6_cmd_event :
    ∀ (env : PosthogEnv) (st : PosthogHandlerState) (r : LogRecord),
    env.filterLogLine r.message = "CMD: \x7b\"cmd\": \"price\"\x7d" →
    env.identifyErr = none → env.aliasErr = none → r.extra = none →
    (capturesOf (send env st r).calls =
      [(st._settings.val.app_id, "log_cmd", cmdProps env st r)] ∧
     lookupAssoc ("appName") (cmdProps env st r) = some (Json.str st._settings.val.app_name) ∧
     lookupAssoc ("subAppName") (cmdProps env st r) =
       some (Json.str st._settings.val.sub_app_name) ∧
     lookupAssoc ("appId") (cmdProps env st r) = some (Json.str st._settings.val.app_id) ∧
     lookupAssoc ("sessionId") (cmdProps env st r) =
       some (Json.str st._settings.val.session_id) ∧
     lookupAssoc ("platform") (cmdProps env st r) = some (Json.str st._settings.val.platform) ∧
     lookupAssoc ("pythonVersion") (cmdProps env st r) =
       some (Json.str st._settings.val.python_version) ∧
     lookupAssoc ("obbPlatformVersion") (cmdProps env st r) =
       some (Json.str st._settings.val.platform_version) ∧
     lookupAssoc ("CMD") (cmdProps env st r) =
       some (Json.obj [("cmd", Json.str ("price"))]) ∧
     lookupAssoc ("cmd") (cmdProps env st r) = none) := by
  intro env st r h hid hal hx
  have hnod1 : NodupKeys [(("CMD" : String), Json.obj [("cmd", Json.str ("price"))])] := by
    unfold NodupKeys
    simp only [List.map_cons, List.map_nil]
    decide
  have seed : ∀ q : String, q ≠ "message" → q ≠ "level" → q ≠ "userId" → q ≠ "exception" →
      q ≠ "CMD" →
      lookupAssoc q (cmdProps env st r) =
        lookupAssoc q
          [("appName", Json.str st._settings.val.app_name),
           ("subAppName", Json.str st._settings.val.sub_app_name),
           ("appId", Json.str st._settings.val.app_id),
           ("sessionId", Json.str st._settings.val.session_id),
           ("platform", Json.str st._settings.val.platform),
           ("pythonVersion", Json.str st._settings.val.python_version),
           ("obbPlatformVersion", Json.str st._settings.val.platform_version)] := by
    intro q h1 h2 h3 h4 h5
    unfold cmdProps
    rw [lookup_removeKey_ne _ _ _ h1, lookup_mergeDict _ _ _ hnod1]
    have g5 : ¬ ("CMD" = q) := fun hh => h5 hh.symm
    simp only [lookupAssoc, if_neg g5]
    rw [lookup_baseLogExtra_ne env st r q h2 h1, lookup_extract_of_no_extra st r q hx h3 h4]
    simp only [lookupAssoc]
  refine ⟨?_, ?_, ?_, ?_, ?_, ?_, ?_, ?_, ?_, ?_⟩
  · show capturesOf (act env st (classify env st r)).calls = _
    rw [classify_cmd_literal env st r h]
    exact capturesOf_act_accept env st _ _ hid hal
  · rw [seed ("appName") (by decide) (by decide) (by decide) (by decide) (by decide)]
    rfl
  · rw [seed ("subAppName") (by decide) (by decide) (by decide) (by decide) (by decide)]
    rfl
  · rw [seed ("appId") (by decide) (by decide) (by decide) (by decide) (by decide)]
    rfl
  · rw [seed ("sessionId") (by decide) (by decide) (by decide) (by decide) (by decide)]
    rfl
  · rw [seed ("platform") (by decide) (by decide) (by decide) (by decide) (by decide)]
    rfl
  · rw [seed ("pythonVersion") (by decide) (by decide) (by decide) (by decide) (by decide)]
    rfl
  · rw [seed ("obbPlatformVersion") (by decide) (by decide) (by decide) (by decide) (by decide)]
    rfl
  · unfold cmdProps
    rw [lookup_removeKey_ne _ _ _ (by decide), lookup_mergeDict _ _ _ hnod1]
    rfl
  · rw [seed ("cmd") (by decide) (by decide) (by decide) (by decide) (by decide)]
    rfl

/-- Witness for the amended C6 at the concrete command record. -/
theorem c6_witness :
    capturesOf (send okEnv userState cmdRec).calls =
      [("app-1", "log_cmd", cmdProps okEnv userState cmdRec)] ∧
    lookupAssoc ("appName") (cmdProps okEnv userState cmdRec) = some (Json.str ("openbb")) ∧
    lookupAssoc ("subAppName") (cmdProps okEnv userState cmdRec) = some (Json.str ("platform")) ∧
    lookupAssoc ("appId") (cmdProps okEnv userState cmdRec) = some (Json.str ("app-1")) ∧
    lookupAssoc ("sessionId") (cmdProps okEnv userState cmdRec) = some (Json.str ("sess-1")) ∧
    lookupAssoc ("platform") (cmdProps okEnv userState cmdRec) = some (Json.str ("linux")) ∧
    lookupAssoc ("pythonVersion") (cmdProps okEnv userState cmdRec) = some (Json.str ("3.10")) ∧
    lookupAssoc ("obbPlatformVersion") (cmdProps okEnv userState cmdRec) =
      some (Json.str ("4.0")) ∧
    lookupAssoc ("CMD") (cmdProps okEnv userState cmdRec) =
      some (Json.obj [("cmd", Json.str ("price"))]) ∧
    lookupAssoc ("cmd") (cmdProps okEnv userState cmdRec) = none :=
  c6_cmd_event okEnv userState cmdRec rfl rfl rfl rfl

/-- C8: the classifier collects every occurrence of `TAG: payload` with
TAG in the fixed set — here one occurrence per line, as the greedy payload
group runs to the end of its line — into the tag-to-parsed-payload
mapping, in scan order, parsing each payload as JSON and raising the
first decoding failure. -/
theorem c8_collects_all_occurrences :
    ∀ ps : List (String × String),
    (∀ x ∈ ps, x.1 = "STARTUP" ∨ x.1 = "CMD" ∨ x.1 = "ERROR") →
    (∀ x ∈ ps, '\n' ∉ x.2.toList) →
    (ps.map Prod.fst).Nodup →
    (findall (logLinesJoin ps) = ps ∧
     log_to_dict (String.mk (logLinesJoin ps)) = parseAllPayloads ps) := by
  intro ps ht hp hnd
  have h1 := findall_logLinesJoin ps ht hp
  refine ⟨h1, ?_⟩
  show logToDictAux (findall (String.mk (logLinesJoin ps)).toList) [] = _
  have hmk : (String.mk (logLinesJoin ps)).toList = logLinesJoin ps := rfl
  rw [hmk, h1, logToDictAux_eq_parseAll ps [] hnd (fun x _ => rfl)]
  cases hpa : parseAllPayloads ps with
  | error e => rfl
  | ok js => simp

/-- Witness for C8 on a two-line message holding a startup payload and a
command payload. -/
theorem c8_witness :
    findall (logLinesJoin c8ps) = c8ps ∧
    log_to_dict (String.mk (logLinesJoin c8ps)) = parseAllPayloads c8ps :=
  c8_collects_all_occurrences c8ps (by decide) (by decide) (by decide)
